import Mathlib

/-!
Verification of the product-scraping tool in `tools/scrape-thediamondguy.mjs`.

The script is a single pipeline: fetch the homepage, extract JSON-LD blocks,
flatten them, follow the ItemList URLs, map each Product to a ring card,
deduplicate by id and write the result (falling back to a fixed placeholder
dataset when nothing was collected).

Shallow embedding conventions:
- JSON values are the mutual inductive `Json` / `JsonList` / `JsonFields`
  (object fields carry distinct keys, as produced by `JSON.parse`).
- JavaScript truthiness is `truthy`; `undefined` is `Option.none`.
- The host facilities the script calls out to are oracles collected in
  `Env`: `fetchOr` models `fetchText` (`none` = request threw), `scanLd`
  models the regex scan for `application/ld+json` script bodies (captured
  bodies in document order), and `jsonParse` models `JSON.parse`
  (`none` = parse threw).
- JavaScript string primitives used by the script (`trim`, `toLowerCase`,
  `split`, `startsWith`, the slug regexes) are re-implemented structurally
  over `List Char` so that everything evaluates in the kernel; only their
  behaviour on ASCII input matters for this script.
- The write of `rings.json` is modelled by the value `mainRings` returns:
  `none` means the run aborted (homepage fetch threw), `some rs` means the
  record list `rs` is serialized to the output file.
-/

mutual

inductive Json where
  | null
  | bool (b : Bool)
  | num (n : Int)
  | str (s : String)
  | arr (xs : JsonList)
  | obj (fs : JsonFields)
deriving DecidableEq

inductive JsonList where
  | nil
  | cons (hd : Json) (tl : JsonList)
deriving DecidableEq

inductive JsonFields where
  | nil
  | cons (k : String) (v : Json) (tl : JsonFields)
deriving DecidableEq

end

/-- Builds a `JsonList` from a Lean list literal. -/
def jlist : List Json → JsonList
  | [] => JsonList.nil
  | x :: xs => JsonList.cons x (jlist xs)

/-- Builds a `JsonFields` from a Lean list literal. -/
def jfields : List (String × Json) → JsonFields
  | [] => JsonFields.nil
  | (k, v) :: xs => JsonFields.cons k v (jfields xs)

/-- Converts a `JsonList` back to a Lean list (the `for ... of` iteration order). -/
def JsonList.toList : JsonList → List Json
  | JsonList.nil => []
  | JsonList.cons hd tl => hd :: JsonList.toList tl

/-- JavaScript truthiness of a JSON value (`NaN` is not representable here). -/
def truthy : Json → Bool
  | Json.null => false
  | Json.bool b => b
  | Json.num n => n != 0
  | Json.str s => s != ""
  | Json.arr _ => true
  | Json.obj _ => true

/-- Property lookup on an object's field list (keys are distinct, so the
first match is the JavaScript property access). -/
def lookupField : JsonFields → String → Option Json
  | JsonFields.nil, _ => none
  | JsonFields.cons k v tl, key => if k = key then some v else lookupField tl key

/-- Property access `x?.[key]`: `none` models `undefined` (non-objects and
null have none of the properties this script reads). -/
def jsGet : Json → String → Option Json
  | Json.obj fs, key => lookupField fs key
  | _, _ => none

/-- Truthiness of a possibly-undefined value. -/
def jsTruthyOpt : Option Json → Bool
  | none => false
  | some j => truthy j

/-- The JavaScript `a || b`: `a` when truthy, otherwise `b` (even if falsy). -/
def jsOr (a b : Option Json) : Option Json :=
  if jsTruthyOpt a then a else b

/-- Optional chaining `o?.[key]` on a possibly-undefined receiver. -/
def jsGetOpt (o : Option Json) (key : String) : Option Json :=
  match o with
  | some j => jsGet j key
  | none => none

mutual

/-- The JavaScript `String(...)` conversion on a JSON value (numbers are
modelled as integers, which the script only ever prints in decimal). -/
def jsToString : Json → String
  | Json.null => "null"
  | Json.bool b => cond b "true" "false"
  | Json.num n => toString n
  | Json.str s => s
  | Json.arr xs => jsArrStr xs
  | Json.obj _ => "[object Object]"

/-- The `Array.prototype.toString` join with commas; a null element prints
as the empty string. -/
def jsArrStr : JsonList → String
  | JsonList.nil => ""
  | JsonList.cons hd JsonList.nil =>
    (match hd with
     | Json.null => ""
     | j => jsToString j)
  | JsonList.cons hd (JsonList.cons h2 tl) =>
    (match hd with
     | Json.null => ""
     | j => jsToString j) ++ "," ++ jsArrStr (JsonList.cons h2 tl)

end

/-- Whitespace as removed by `String.prototype.trim` (ASCII subset; the
script never meets exotic Unicode whitespace). -/
def wsChar (c : Char) : Bool :=
  c = ' ' || c = '\t' || c = '\n' || c = '\r'

/-- The JavaScript `s.trim()`. -/
def jsTrim (s : String) : String :=
  String.mk (((s.data.dropWhile wsChar).reverse.dropWhile wsChar).reverse)

/-- The JavaScript `s.toLowerCase()` (ASCII range). -/
def lowerChar (c : Char) : Char :=
  if 'A' ≤ c && c ≤ 'Z' then Char.ofNat (c.toNat + 32) else c

/-- The JavaScript `s.split(sep)` for a one-character separator. -/
def splitChar (sep : Char) : List Char → List (List Char)
  | [] => [[]]
  | c :: rest =>
    if c = sep then [] :: splitChar sep rest
    else
      match splitChar sep rest with
      | [] => [[c]]
      | seg :: segs => (c :: seg) :: segs

/-- Path segments of a URL string: `String(url).split('/')`. -/
def jsSegments (s : String) : List String :=
  (splitChar '/' s.data).map String.mk

/-- The JavaScript `s.startsWith(pat)`. -/
def strBegins (s pat : String) : Bool :=
  hasLead s.data pat.data
where
  hasLead : List Char → List Char → Bool
    | _, [] => true
    | [], _ :: _ => false
    | c :: cs, d :: ds => c = d && hasLead cs ds

/-- Characters the slug regex `[^a-z0-9]` keeps (input is lowercased first). -/
def isSlugChar (c : Char) : Bool :=
  ('a' ≤ c && c ≤ 'z') || ('0' ≤ c && c ≤ '9')

mutual

/-- The regex replace `/[^a-z0-9]+/g` to a single hyphen: a maximal run of
non-alphanumeric characters becomes one hyphen. -/
def collapseRuns : List Char → List Char
  | [] => []
  | c :: rest =>
    if isSlugChar c then c :: collapseRuns rest else '-' :: skipRun rest

/-- Consumes the rest of a non-alphanumeric run already replaced by a hyphen. -/
def skipRun : List Char → List Char
  | [] => []
  | c :: rest =>
    if isSlugChar c then c :: collapseRuns rest else skipRun rest

end

/-- The regex replace `/(^-|-$)/g`: removes one leading and one trailing
hyphen, exactly as the two anchored alternatives match. -/
def stripEdgeHyphens (l : List Char) : List Char :=
  let l1 := match l with
    | '-' :: rest => rest
    | other => other
  match l1.reverse with
  | '-' :: rest => rest.reverse
  | _ => l1

/-- The slug fallback of the id derivation:
`name.toLowerCase().replace(/[^a-z0-9]+/g, '-').replace(/(^-|-$)/g, '')`. -/
def slugify (s : String) : String :=
  String.mk (stripEdgeHyphens (collapseRuns (s.data.map lowerChar)))

/-- Host facilities the script uses, modelled as oracles: `fetchOr` is
`fetchText` (`none` = the request threw or had a non-ok status), `scanLd`
is the `application/ld+json` script-tag regex scan returning captured
bodies in document order, `jsonParse` is `JSON.parse` (`none` = threw). -/
structure Env where
  fetchOr : String → Option String
  scanLd : String → List String
  jsonParse : String → Option Json

/-- Source `safeJsonParse` (lines 21-23): `JSON.parse` with a `null`
result when parsing throws. -/
def safeJsonParse (env : Env) (text : String) : Json :=
  match env.jsonParse text with
  | some v => v
  | none => Json.null

/-- Source `extractJsonLd` (lines 43-54): parse each matched block body
(trimmed); a falsy parse result (failure, or a block denoting null, false,
0 or the empty string) is skipped. -/
def extractJsonLd (env : Env) (html : String) : List Json :=
  (env.scanLd html).filterMap (fun raw =>
    let parsed := safeJsonParse env (jsTrim raw)
    if truthy parsed then some parsed else none)

mutual

/-- Source `normalizeToItems`'s inner `pushAny` (lines 59-66): falsy values
contribute nothing, arrays are expanded element-wise, objects are appended
after the traversal of their truthy `@graph` value, scalars are dropped. -/
def pushAny : Json → List Json
  | Json.arr xs => pushAnyList xs
  | Json.obj fs => graphItems fs ++ [Json.obj fs]
  | _ => []

/-- Element-wise `forEach(pushAny)` over an array. -/
def pushAnyList : JsonList → List Json
  | JsonList.nil => []
  | JsonList.cons hd tl => pushAny hd ++ pushAnyList tl

/-- The `if (x['@graph']) pushAny(x['@graph'])` step, with the property
lookup inlined over the field list (keys are distinct). -/
def graphItems : JsonFields → List Json
  | JsonFields.nil => []
  | JsonFields.cons k v tl =>
    if k = "@graph" then (if truthy v then pushAny v else []) else graphItems tl

end

/-- Source `normalizeToItems` (lines 56-69). -/
def normalizeToItems (jsonld : Json) : List Json :=
  pushAny jsonld

/-- The `x?.['@type'] === tag` checks used to find the ItemList and the
Product (strict string comparison). -/
def isTypeTag (tag : String) (x : Json) : Bool :=
  match jsGet x "@type" with
  | some (Json.str s) => s == tag
  | _ => false

/-- Output record shape (source lines 82-89). `href` is an `Option` because
the placeholder records (lines 127-128) carry no `href` property at all:
`some s` means the serialized object has an `href` field with value `s`. -/
structure RingCard where
  id : String
  name : String
  tagline : String
  href : Option String
  badge : String
  model : Int
deriving DecidableEq, Repr

/-- Result of `toRingCard`: `ok` is a returned record, `noName` the early
`return null`, `typeError` the exception thrown when the slug fallback
calls `toLowerCase` on a truthy non-string name. In `main` both non-`ok`
outcomes drop the page (the `if (ring)` guard and the `catch`). -/
inductive MapResult where
  | ok (r : RingCard)
  | noName
  | typeError
deriving DecidableEq, Repr

/-- The `product?.name || product?.title` value (source line 72). -/
def nameOf (product : Json) : Option Json :=
  jsOr (jsGet product "name") (jsGet product "title")

/-- First id alternative, `product?.sku && String(product.sku)` (line 77):
contributes only when `sku` is truthy and stringifies to a non-empty
(hence truthy) string. -/
def skuIdOf (product : Json) : Option String :=
  match jsGet product "sku" with
  | some sv =>
    if truthy sv then
      (if jsToString sv = "" then none else some (jsToString sv))
    else none
  | none => none

/-- Second id alternative (line 78): the last non-empty slash-delimited
segment of a truthy `url`, if any. -/
def urlIdOf (product : Json) : Option String :=
  match jsGet product "url" with
  | some uv =>
    if truthy uv then ((jsSegments (jsToString uv)).filter (fun seg => seg != "")).getLast?
    else none
  | none => none

/-- The record's `href`: `url ? String(url) : ''` (line 86). -/
def hrefOf (product : Json) : String :=
  match jsGet product "url" with
  | some uv => if truthy uv then jsToString uv else ""
  | none => ""

/-- The record literal of lines 82-89 with a given id. -/
def mkCard (product : Json) (i : String) : RingCard :=
  { id := i
    name := jsTrim (jsToString ((nameOf product).getD Json.null))
    tagline := ""
    href := some (hrefOf product)
    badge := "Imported"
    model := 1 }

/-- Source `toRingCard` (lines 71-90). The id is the first truthy of the
three alternatives; the slug fallback is evaluated only when the first two
are falsy and throws unless the name is a string. -/
def toRingCard (product : Json) : MapResult :=
  if jsTruthyOpt (nameOf product) then
    match (skuIdOf product).orElse (fun _ => urlIdOf product) with
    | some i => MapResult.ok (mkCard product i)
    | none =>
      match nameOf product with
      | some (Json.str s) => MapResult.ok (mkCard product (slugify s))
      | _ => MapResult.typeError
  else MapResult.noName

/-- Source `uniqBy`'s loop (lines 25-35) with the `seen` set made explicit:
an item whose key is falsy (the empty string, since keys here are strings)
or already seen is dropped. -/
def uniqByAux {α : Type} (keyFn : α → String) (seen : List String) : List α → List α
  | [] => []
  | item :: rest =>
    if keyFn item = "" ∨ keyFn item ∈ seen then uniqByAux keyFn seen rest
    else item :: uniqByAux keyFn (keyFn item :: seen) rest

/-- Source `uniqBy` (lines 25-35). -/
def uniqBy {α : Type} (arr : List α) (keyFn : α → String) : List α :=
  uniqByAux keyFn [] arr

/-- The scraped site root (line 19). -/
def SITE : String := "https://www.thediamondguy.co.za"

/-- One iteration of the URL-collection loop (lines 101-105): the
`li?.url || li?.item?.url || li?.item` chain, kept when it is a string
starting with `http` (absolute) or `/` (resolved against the site root). -/
def liToUrl (li : Json) : Option String :=
  match jsOr (jsGet li "url") (jsOr (jsGetOpt (jsGet li "item") "url") (jsGet li "item")) with
  | some (Json.str s) =>
    if strBegins s "http" then some s
    else if strBegins s "/" then some (SITE ++ s) else none
  | _ => none

/-- Lines 98-101: the first flattened item tagged `ItemList`, its
`itemListElement` when that is an array, else no entries. -/
def listItemsOf (jsonlds : List Json) : List Json :=
  match jsonlds.find? (isTypeTag "ItemList") with
  | some il =>
    match jsGet il "itemListElement" with
    | some (Json.arr xs) => xs.toList
    | _ => []
  | none => []

/-- Line 95: extract and flatten the homepage's structured data. -/
def homeItems (env : Env) (homeHtml : String) : List Json :=
  (extractJsonLd env homeHtml).flatMap normalizeToItems

/-- Lines 98-105: the candidate product URLs in discovery order. -/
def discoveredUrls (env : Env) (homeHtml : String) : List String :=
  (listItemsOf (homeItems env homeHtml)).filterMap liToUrl

/-- Line 108: URL deduplication by exact string equality. -/
def productPages (env : Env) (homeHtml : String) : List String :=
  uniqBy (discoveredUrls env homeHtml) (fun u => u)

/-- Line 111: the hard cap, `productPages.slice(0, 60)` — the URLs the
product-page loop actually fetches. -/
def fetchedPages (env : Env) (homeHtml : String) : List String :=
  (productPages env homeHtml).take 60

/-- One iteration of the product-page loop (lines 111-122): any fetch
failure, missing Product, `null` mapping or mapping exception yields
nothing for this page. -/
def scrapePage (env : Env) (u : String) : Option RingCard :=
  match env.fetchOr u with
  | none => none
  | some html =>
    match ((extractJsonLd env html).flatMap normalizeToItems).find? (isTypeTag "Product") with
    | none => none
    | some product =>
      match toRingCard product with
      | MapResult.ok r => some r
      | _ => none

/-- The `products` accumulator after the loop (lines 109-122). -/
def collectedProducts (env : Env) (homeHtml : String) : List RingCard :=
  (fetchedPages env homeHtml).filterMap (scrapePage env)

/-- The placeholder dataset of lines 126-129; note these two records have
no `href` property. -/
def placeholderRings : List RingCard :=
  [ { id := "classic-solitaire"
      name := "Classic Solitaire"
      tagline := "Clean lines, timeless profile"
      href := none
      badge := "Configurable"
      model := 1 }
  , { id := "halo-ensemble"
      name := "Halo Ensemble"
      tagline := "Soft sparkle, elevated presence"
      href := none
      badge := "Configurable"
      model := 2 } ]

/-- Lines 124-129: deduplicate by id when anything was collected, else the
placeholder dataset. -/
def ringsOf (products : List RingCard) : List RingCard :=
  if products = [] then placeholderRings else uniqBy products (fun p => p.id)

/-- Source `main` (lines 92-135), up to the file write: `none` models the
fatal homepage-fetch failure, `some rs` the record list written to
`assets/data/rings.json`. -/
def mainRings (env : Env) : Option (List RingCard) :=
  match env.fetchOr SITE with
  | none => none
  | some homeHtml => some (ringsOf (collectedProducts env homeHtml))

/-! Concrete scenario data used by the closed theorems below. Since the
regex scan and `JSON.parse` are oracles, each scenario fixes their graphs
on the handful of strings the run touches; a reviewer checks that each
oracle value is what the real host facility returns on that input. -/

/-- Homepage structured data for the end-to-end scenario: a single ItemList
whose one entry carries the relative URL `/rings/solitaire`. -/
def homeJson1 : Json :=
  Json.obj (jfields
    [ ("@type", Json.str "ItemList")
    , ("itemListElement", Json.arr (jlist [Json.obj (jfields [("url", Json.str "/rings/solitaire")])])) ])

/-- Product-page structured data for the end-to-end scenario. -/
def productJson1 : Json :=
  Json.obj (jfields
    [ ("@type", Json.str "Product")
    , ("name", Json.str "Solitaire Ring")
    , ("sku", Json.str "SOL-1")
    , ("url", Json.str (SITE ++ "/rings/solitaire")) ])

/-- End-to-end scenario environment: the homepage holds one ItemList block,
the listed page holds one Product block. -/
def envC1 : Env :=
  { fetchOr := fun u =>
      if u = SITE then some "home html"
      else if u = SITE ++ "/rings/solitaire" then some "product html"
      else none
  , scanLd := fun h =>
      if h = "home html" then ["home block"]
      else if h = "product html" then ["product block"]
      else []
  , jsonParse := fun t =>
      if t = "home block" then some homeJson1
      else if t = "product block" then some productJson1
      else none }

/-- A Product whose name has no alphanumeric characters and which carries
no sku and no url: its derived id is the empty string. -/
def bangProduct : Json :=
  Json.obj (jfields [("@type", Json.str "Product"), ("name", Json.str "!!!")])

/-- Homepage listing the single product page `/p1`. -/
def bangHome : Json :=
  Json.obj (jfields
    [ ("@type", Json.str "ItemList")
    , ("itemListElement", Json.arr (jlist [Json.obj (jfields [("url", Json.str "/p1")])])) ])

/-- Environment in which one record is collected but its derived id is
empty, so deduplication erases it and the run writes an empty array. -/
def envBang : Env :=
  { fetchOr := fun u =>
      if u = SITE then some "home2"
      else if u = SITE ++ "/p1" then some "page2"
      else none
  , scanLd := fun h =>
      if h = "home2" then ["hb2"]
      else if h = "page2" then ["pb2"]
      else []
  , jsonParse := fun t =>
      if t = "hb2" then some bangHome
      else if t = "pb2" then some bangProduct
      else none }

/-- Environment whose homepage has no structured-data blocks at all: the
run collects nothing and writes the placeholder dataset. -/
def envEmpty : Env :=
  { fetchOr := fun u => if u = SITE then some "home0" else none
  , scanLd := fun _ => []
  , jsonParse := fun _ => none }

/-- A candidate with a truthy `sku` that stringifies to a non-empty string,
plus a name and a url: the normal sku-precedence case. -/
def skuGoodProduct : Json :=
  Json.obj (jfields
    [ ("name", Json.str "Ring"), ("sku", Json.str "SOL-9"), ("url", Json.str "https://x/a/b") ])

/-- A candidate with a falsy `sku` (the number 0) and a url: the code falls
through to the URL-derived id even though a sku is present. -/
def skuZeroProduct : Json :=
  Json.obj (jfields
    [ ("sku", Json.num 0), ("url", Json.str "https://x/a/b"), ("name", Json.str "Ring") ])

/-- A record whose derived id is the empty string. -/
def cardEmptyId : RingCard :=
  { id := "", name := "X", tagline := "", href := some "", badge := "Imported", model := 1 }

/-- Environment for the extractor counterexample: one matched block whose
body is the valid JSON text denoting `false`. -/
def envC8 : Env :=
  { fetchOr := fun _ => none
  , scanLd := fun h => if h = "h8" then ["b8"] else []
  , jsonParse := fun t => if t = "b8" then some (Json.bool false) else none }

/-- Object fields carrying a `@graph` key, for the normalizer witness. -/
def graphFields : JsonFields :=
  jfields [("@graph", Json.arr (jlist [Json.obj (jfields [("a", Json.num 1)])]))]

/-- The value of the `@graph` key in `graphFields`. -/
def graphVal : Json :=
  Json.arr (jlist [Json.obj (jfields [("a", Json.num 1)])])

/-! Helper lemmas shared by the claim theorems. -/

/-- Membership in the deduplication loop: an element is kept exactly when
its key is non-empty, not already seen, and the element is the first of
the list bearing that key. -/
theorem mem_uniqByAux {α : Type} (k : α → String) :
    ∀ (l : List α) (seen : List String) (x : α),
      x ∈ uniqByAux k seen l ↔
        k x ∉ seen ∧ k x ≠ "" ∧ l.find? (fun y => k y == k x) = some x := by
  intro l
  induction l with
  | nil => intro seen x; simp [uniqByAux]
  | cons item rest ih =>
    intro seen x
    by_cases hk : k item = "" ∨ k item ∈ seen
    · rw [uniqByAux, if_pos hk, ih]
      by_cases hm : k item = k x
      · rw [List.find?_cons_of_pos _ (by simp [hm])]
        rcases hk with hk | hk
        · rw [hm] at hk
          constructor
          · rintro ⟨_, h2, _⟩; exact absurd hk h2
          · rintro ⟨_, h2, _⟩; exact absurd hk h2
        · rw [hm] at hk
          constructor
          · rintro ⟨h1, _, _⟩; exact absurd hk h1
          · rintro ⟨h1, _, _⟩; exact absurd hk h1
      · rw [List.find?_cons_of_neg _ (by simp [hm])]
    · rw [uniqByAux, if_neg hk]
      push_neg at hk
      obtain ⟨hne, hns⟩ := hk
      rw [List.mem_cons, ih]
      by_cases hm : k item = k x
      · rw [List.find?_cons_of_pos _ (by simp [hm])]
        constructor
        · rintro (rfl | ⟨h1, _, _⟩)
          · exact ⟨hns, hne, rfl⟩
          · exact absurd (by rw [← hm]; exact List.mem_cons_self _ _) h1
        · rintro ⟨_, _, h3⟩
          injection h3 with h3
          exact Or.inl h3.symm
      · rw [List.find?_cons_of_neg _ (by simp [hm])]
        constructor
        · rintro (rfl | ⟨h1, h2, h3⟩)
          · exact absurd rfl hm
          · exact ⟨fun hx => h1 (List.mem_cons_of_mem _ hx), h2, h3⟩
        · rintro ⟨h1, h2, h3⟩
          refine Or.inr ⟨?_, h2, h3⟩
          rw [List.mem_cons]
          rintro (h | h)
          · exact hm h.symm
          · exact h1 h

/-- Membership in `uniqBy`: kept iff the key is non-empty and the element
is the first of the list with its key. -/
theorem mem_uniqBy {α : Type} (k : α → String) (l : List α) (x : α) :
    x ∈ uniqBy l k ↔ k x ≠ "" ∧ l.find? (fun y => k y == k x) = some x := by
  rw [uniqBy, mem_uniqByAux]
  simp

/-- The deduplicated list carries pairwise distinct keys. -/
theorem uniqByAux_pairwise {α : Type} (k : α → String) :
    ∀ (l : List α) (seen : List String),
      (uniqByAux k seen l).Pairwise (fun a b => k a ≠ k b) := by
  intro l
  induction l with
  | nil => intro seen; simp [uniqByAux]
  | cons item rest ih =>
    intro seen
    by_cases hk : k item = "" ∨ k item ∈ seen
    · rw [uniqByAux, if_pos hk]; exact ih seen
    · rw [uniqByAux, if_neg hk]
      rw [List.pairwise_cons]
      refine ⟨?_, ih _⟩
      intro b hb hEq
      have hmem := ((mem_uniqByAux k rest (k item :: seen) b).1 hb).1
      exact hmem (by rw [← hEq]; exact List.mem_cons_self _ _)

/-- The array case of the flattening, over the Lean view of the list. -/
theorem pushAnyList_toList : ∀ (xs : JsonList), pushAnyList xs = xs.toList.flatMap pushAny
  | JsonList.nil => by simp [pushAnyList, JsonList.toList]
  | JsonList.cons hd tl => by
    rw [pushAnyList, pushAnyList_toList tl]
    simp [JsonList.toList]

/-- A falsy value contributes nothing to the flattening. -/
theorem pushAny_falsy (g : Json) (h : truthy g = false) : pushAny g = [] := by
  cases g with
  | null => rfl
  | bool b => cases b with | false => rfl | true => simp [truthy] at h
  | num n => rfl
  | str s => rfl
  | arr xs => simp [truthy] at h
  | obj fs => simp [truthy] at h

/-- The inlined graph traversal agrees with property lookup. -/
theorem graphItems_lookup : ∀ (fs : JsonFields),
    graphItems fs =
      match lookupField fs "@graph" with
      | some g => if truthy g then pushAny g else []
      | none => []
  | JsonFields.nil => rfl
  | JsonFields.cons k v tl => by
    by_cases hk : k = "@graph"
    · subst hk; simp [graphItems, lookupField]
    · simp [graphItems, lookupField, hk, graphItems_lookup tl]

/-- Every record the mapper returns carries the fixed defaults and a
present (string-valued) `href`. -/
theorem toRingCard_ok (product : Json) (r : RingCard)
    (h : toRingCard product = MapResult.ok r) :
    r.href = some (hrefOf product) ∧ r.tagline = "" ∧ r.badge = "Imported" ∧ r.model = 1 := by
  unfold toRingCard at h
  split at h
  · split at h
    · injection h with h; subst h; exact ⟨rfl, rfl, rfl, rfl⟩
    · split at h
      · injection h with h; subst h; exact ⟨rfl, rfl, rfl, rfl⟩
      · simp at h
  · simp at h

/-- Every record the page loop yields was returned by the mapper. -/
theorem scrapePage_ok (env : Env) (u : String) (r : RingCard)
    (h : scrapePage env u = some r) :
    ∃ product, toRingCard product = MapResult.ok r := by
  rw [scrapePage] at h
  cases hf : env.fetchOr u with
  | none => simp [hf] at h
  | some html =>
    simp only [hf] at h
    cases hfind : ((extractJsonLd env html).flatMap normalizeToItems).find? (isTypeTag "Product") with
    | none => simp [hfind] at h
    | some product =>
      simp only [hfind] at h
      cases ht : toRingCard product with
      | ok r0 => simp only [ht] at h; injection h with h; exact ⟨product, by rw [ht, h]⟩
      | noName => simp [ht] at h
      | typeError => simp [ht] at h

/-- A list of characters none of which the slug keeps collapses away. -/
theorem skipRun_all_false (cs : List Char) (h : ∀ c ∈ cs, isSlugChar c = false) :
    skipRun cs = [] := by
  induction cs with
  | nil => rfl
  | cons c rest ih =>
    rw [skipRun, if_neg (by simp [h c (List.mem_cons_self c rest)])]
    exact ih fun d hd => h d (List.mem_cons_of_mem _ hd)

/-- Slugifying a name with no alphanumeric characters gives the empty id. -/
theorem slugify_empty (s : String) (h : ∀ c ∈ s.data.map lowerChar, isSlugChar c = false) :
    slugify s = "" := by
  rw [slugify]
  cases hcs : s.data.map lowerChar with
  | nil => rfl
  | cons c rest =>
    rw [collapseRuns, if_neg (by simp [h c (by rw [hcs]; exact List.mem_cons_self c rest)])]
    rw [skipRun_all_false rest (fun d hd => h d (by rw [hcs]; exact List.mem_cons_of_mem _ hd))]
    rfl

/-! The claim theorems. -/

/-- C1: end-to-end — given a homepage whose only structured-data block is
an ItemList containing the single relative URL `/rings/solitaire`, and a
product page at that URL whose structured data contains a Product named
"Solitaire Ring" with sku "SOL-1" (and the page's canonical url), the
pipeline writes exactly one record with id "SOL-1", the trimmed name, an
empty tagline, the site-resolved href, badge "Imported" and model 1
(fetching, the block scan and JSON parsing modelled as oracles). -/
theorem claim1_end_to_end :
    mainRings envC1 = some
      [ { id := "SOL-1"
        , name := "Solitaire Ring"
        , tagline := ""
        , href := some (SITE ++ "/rings/solitaire")
        , badge := "Imported"
        , model := 1 } ] := by decide

/-- C9: the candidate whose name is "Classic Solitaire!!" with no sku and
no url maps to the record with id "classic-solitaire" (lowercased,
non-alphanumeric runs collapsed to one hyphen, edge hyphens trimmed). -/
theorem claim9_slug_fallback :
    toRingCard (Json.obj (jfields [("name", Json.str "Classic Solitaire!!")])) =
      MapResult.ok
        { id := "classic-solitaire"
        , name := "Classic Solitaire!!"
        , tagline := ""
        , href := some ""
        , badge := "Imported"
        , model := 1 } := by decide

/-- C4 counterexample: two records sharing the derived id "" are BOTH
dropped by the deduplication — the output keeps neither, so dedup does not
keep the first record bearing each id, as the claim states. -/
theorem claim4_counterexample :
    uniqBy [cardEmptyId, cardEmptyId] (fun p => p.id) = [] ∧
    cardEmptyId ∉ uniqBy [cardEmptyId, cardEmptyId] (fun p => p.id) := by decide

/-- C4 amended: deduplication keeps exactly the first record bearing each
non-empty id in discovery order and drops every record whose id is empty;
consequently the output never contains two records with the same id. -/
theorem claim4_amended (l : List RingCard) :
    (uniqBy l (fun p => p.id)).Pairwise (fun a b => a.id ≠ b.id) ∧
    ∀ x : RingCard, x ∈ uniqBy l (fun p => p.id) ↔
      x.id ≠ "" ∧ l.find? (fun y => y.id == x.id) = some x :=
  ⟨uniqByAux_pairwise _ l [], fun x => mem_uniqBy _ l x⟩

/-- C7: the product-page loop fetches at most 60 URLs, and the ones it
fetches are an initial segment (discovery order) of the deduplicated
candidate list — so with 100 discovered candidates at most 60 are fetched. -/
theorem claim7_cap (env : Env) (homeHtml : String) :
    (fetchedPages env homeHtml).length ≤ 60 ∧
    ∃ rest, productPages env homeHtml = fetchedPages env homeHtml ++ rest :=
  ⟨by simp only [fetchedPages]; exact List.length_take_le 60 _,
   ⟨(productPages env homeHtml).drop 60, by
      simp only [fetchedPages]; rw [List.take_append_drop]⟩⟩

/-- C2 counterexample: a run that collects one record whose derived id is
empty (Product named "!!!", no sku, no url) writes an EMPTY array — the
`products.length` check precedes the deduplication that erases the record,
so the written output is not "never an empty array". -/
theorem claim2_counterexample :
    mainRings envBang = some [] ∧ collectedProducts envBang "home2" ≠ [] := by decide

/-- C2 amended: in every run that collects zero product records the written
output is exactly the two-entry placeholder set, ids "classic-solitaire"
then "halo-ensemble", which is non-empty; the output can however be an
empty array when records were collected but all had empty derived ids. -/
theorem claim2_amended (env : Env) (homeHtml : String)
    (hf : env.fetchOr SITE = some homeHtml)
    (hc : collectedProducts env homeHtml = []) :
    mainRings env = some placeholderRings ∧
    placeholderRings.map (fun r => r.id) = ["classic-solitaire", "halo-ensemble"] ∧
    placeholderRings ≠ [] := by
  refine ⟨?_, by decide, by decide⟩
  simp [mainRings, hf, hc, ringsOf]

/-- Witness for C2: a concrete run with no structured data collects
nothing and writes the placeholder set. -/
theorem claim2_witness :
    (envEmpty.fetchOr SITE = some "home0" ∧ collectedProducts envEmpty "home0" = []) ∧
    (mainRings envEmpty = some placeholderRings ∧
     placeholderRings.map (fun r => r.id) = ["classic-solitaire", "halo-ensemble"] ∧
     placeholderRings ≠ []) :=
  ⟨⟨by decide, by decide⟩, claim2_amended envEmpty "home0" (by decide) (by decide)⟩

/-- C3 counterexample: on the placeholder path the two written records
carry NO `href` field at all (modelled as `none`), so not every written
record has the six-field shape with a string `href`. -/
theorem claim3_counterexample :
    mainRings envEmpty = some placeholderRings ∧
    placeholderRings.map (fun r => r.href) = [none, none] := by decide

/-- C3 amended: every record written on the scraped (non-placeholder) path
carries a present, string-valued `href` (alongside the fixed `tagline`,
`badge` and `model` defaults of the mapper); the placeholder records lack
the `href` field. -/
theorem claim3_amended (env : Env) (homeHtml : String)
    (hf : env.fetchOr SITE = some homeHtml)
    (hne : collectedProducts env homeHtml ≠ []) :
    mainRings env = some (ringsOf (collectedProducts env homeHtml)) ∧
    ∀ r ∈ ringsOf (collectedProducts env homeHtml), ∃ s, r.href = some s := by
  constructor
  · simp [mainRings, hf]
  · intro r hr
    rw [ringsOf, if_neg hne] at hr
    have hm := (mem_uniqBy _ _ _).1 hr
    have hrmem := List.mem_of_find?_eq_some hm.2
    rw [collectedProducts] at hrmem
    obtain ⟨u, _, hu⟩ := List.mem_filterMap.1 hrmem
    obtain ⟨product, hp⟩ := scrapePage_ok env u r hu
    exact ⟨hrefOf product, (toRingCard_ok product r hp).1⟩

/-- Witness for C3: the end-to-end run collects one record, and every
record it writes carries a present href. -/
theorem claim3_witness :
    (envC1.fetchOr SITE = some "home html" ∧ collectedProducts envC1 "home html" ≠ []) ∧
    (mainRings envC1 = some (ringsOf (collectedProducts envC1 "home html")) ∧
     ∀ r ∈ ringsOf (collectedProducts envC1 "home html"), ∃ s, r.href = some s) :=
  ⟨⟨by decide, by decide⟩, claim3_amended envC1 "home html" (by decide) (by decide)⟩

/-- C8 counterexample: a matched block whose body is the valid JSON text
"false" parses successfully, yet the extractor drops it (the falsy-parse
guard conflates it with a parse failure) — so the extractor does not
return every successfully parsed tree. -/
theorem claim8_counterexample :
    extractJsonLd envC8 "h8" = [] ∧
    envC8.scanLd "h8" = ["b8"] ∧
    envC8.jsonParse (jsTrim "b8") = some (Json.bool false) := by decide

/-- C8 amended: with zero matched blocks the extractor returns the empty
sequence; in general it returns, in document order, exactly the trimmed
block bodies that parse successfully to a truthy value — a body that fails
to parse is silently skipped, and so is a body parsing to a falsy value
(null, false, 0 or the empty string). -/
theorem claim8_amended (env : Env) (html : String) :
    (env.scanLd html = [] → extractJsonLd env html = []) ∧
    extractJsonLd env html = (env.scanLd html).filterMap (fun raw =>
      match env.jsonParse (jsTrim raw) with
      | some t => if truthy t then some t else none
      | none => none) := by
  constructor
  · intro h; simp [extractJsonLd, h]
  · rw [extractJsonLd]
    have harm : (fun raw =>
        let parsed := safeJsonParse env (jsTrim raw)
        if truthy parsed then some parsed else none)
      = (fun raw =>
        match env.jsonParse (jsTrim raw) with
        | some t => if truthy t then some t else none
        | none => none) := by
      funext raw
      cases h : env.jsonParse (jsTrim raw) with
      | none => simp [safeJsonParse, h, truthy]
      | some t => simp [safeJsonParse, h]
    rw [harm]

/-- Witness for C8: in the no-block environment the scan is empty and the
extractor returns the empty sequence. -/
theorem claim8_witness :
    envEmpty.scanLd "home0" = [] ∧ extractJsonLd envEmpty "home0" = [] :=
  ⟨rfl, (claim8_amended envEmpty "home0").1 rfl⟩

/-- C5 counterexample: a candidate possessing both a sku (the number 0,
which stringifies to "0") and a url gets the URL-derived id "b", not the
stringified sku — a falsy sku falls through to the url alternative. -/
theorem claim5_counterexample :
    toRingCard skuZeroProduct = MapResult.ok
      { id := "b", name := "Ring", tagline := "", href := some "https://x/a/b"
      , badge := "Imported", model := 1 } ∧
    jsToString (Json.num 0) = "0" := by decide

/-- C5 amended: for every candidate with a usable (truthy) name whose sku
is truthy and stringifies to a non-empty string, the derived id equals the
stringified sku, never the URL-derived value; a sku that is falsy, or that
stringifies to the empty string, falls through to the url and slug
alternatives. -/
theorem claim5_amended (product : Json) (sv : Json)
    (hsku : jsGet product "sku" = some sv)
    (ht : truthy sv = true)
    (hs : jsToString sv ≠ "")
    (hname : jsTruthyOpt (nameOf product) = true) :
    ∃ r, toRingCard product = MapResult.ok r ∧ r.id = jsToString sv := by
  have hid : skuIdOf product = some (jsToString sv) := by
    simp [skuIdOf, hsku, ht, hs]
  refine ⟨mkCard product (jsToString sv), ?_, rfl⟩
  simp [toRingCard, hname, hid, Option.orElse]

/-- Witness for C5: the candidate with sku "SOL-9", a url and a name gets
id "SOL-9". -/
theorem claim5_witness :
    (jsGet skuGoodProduct "sku" = some (Json.str "SOL-9") ∧
     truthy (Json.str "SOL-9") = true ∧
     jsToString (Json.str "SOL-9") ≠ "" ∧
     jsTruthyOpt (nameOf skuGoodProduct) = true) ∧
    ∃ r, toRingCard skuGoodProduct = MapResult.ok r ∧ r.id = jsToString (Json.str "SOL-9") :=
  ⟨⟨by decide, by decide, by decide, by decide⟩,
   claim5_amended skuGoodProduct (Json.str "SOL-9") (by decide) (by decide) (by decide) (by decide)⟩

/-- C6: the normalizer contributes nothing for null, expands arrays
element-by-element recursively, drops scalars, and for an object carrying
the "@graph" key the flattened output includes both everything the graph
traversal reaches and the container object itself. -/
theorem claim6_normalizer (xs : JsonList) (b : Bool) (n : Int) (s : String)
    (fs : JsonFields) (g : Json)
    (hg : jsGet (Json.obj fs) "@graph" = some g) :
    normalizeToItems Json.null = [] ∧
    normalizeToItems (Json.arr xs) = xs.toList.flatMap normalizeToItems ∧
    normalizeToItems (Json.bool b) = [] ∧
    normalizeToItems (Json.num n) = [] ∧
    normalizeToItems (Json.str s) = [] ∧
    (∀ y ∈ normalizeToItems g, y ∈ normalizeToItems (Json.obj fs)) ∧
    Json.obj fs ∈ normalizeToItems (Json.obj fs) := by
  have hlk : lookupField fs "@graph" = some g := hg
  have hobj : normalizeToItems (Json.obj fs) =
      (if truthy g then pushAny g else []) ++ [Json.obj fs] := by
    show pushAny (Json.obj fs) = _
    rw [pushAny, graphItems_lookup, hlk]
  refine ⟨rfl, ?_, ?_, rfl, rfl, ?_, ?_⟩
  · show pushAny (Json.arr xs) = _
    rw [pushAny, pushAnyList_toList]
    rfl
  · cases b <;> rfl
  · intro y hy
    rw [hobj]
    by_cases htr : truthy g
    · rw [if_pos htr]
      exact List.mem_append_left _ hy
    · have : normalizeToItems g = [] :=
        pushAny_falsy g (Bool.not_eq_true (truthy g) ▸ eq_false_of_ne_true htr)
      rw [this] at hy
      cases hy
  · rw [hobj]
    exact List.mem_append_right _ (List.mem_cons_self _ _)

/-- Witness for C6: a concrete object carrying a "@graph" array. -/
theorem claim6_witness :
    jsGet (Json.obj graphFields) "@graph" = some graphVal ∧
    (normalizeToItems Json.null = [] ∧
     normalizeToItems (Json.arr JsonList.nil) =
       JsonList.nil.toList.flatMap normalizeToItems ∧
     normalizeToItems (Json.bool false) = [] ∧
     normalizeToItems (Json.num 0) = [] ∧
     normalizeToItems (Json.str "") = [] ∧
     (∀ y ∈ normalizeToItems graphVal, y ∈ normalizeToItems (Json.obj graphFields)) ∧
     Json.obj graphFields ∈ normalizeToItems (Json.obj graphFields)) :=
  ⟨by decide, claim6_normalizer JsonList.nil false 0 "" graphFields graphVal (by decide)⟩

/-- C10: the deduplication drops every record whose derived id is the
empty string (besides later duplicates), so a mapped product whose name
has no alphanumeric characters and no sku/url — whose id slugifies to ""
— never reaches the deduplicated output, and every record on the
non-placeholder output path has a non-empty id. -/
theorem claim10_empty_id_dropped (l : List RingCard) (fs : JsonFields) (s : String)
    (hname : jsGet (Json.obj fs) "name" = some (Json.str s))
    (hs : s ≠ "")
    (hsku : jsGet (Json.obj fs) "sku" = none)
    (hurl : jsGet (Json.obj fs) "url" = none)
    (hslug : ∀ c ∈ s.data.map lowerChar, isSlugChar c = false) :
    (∀ x ∈ uniqBy l (fun p : RingCard => p.id), x.id ≠ "") ∧
    (∀ ps : List RingCard, ps ≠ [] → ∀ x ∈ ringsOf ps, x.id ≠ "") ∧
    ∃ r, toRingCard (Json.obj fs) = MapResult.ok r ∧ r.id = "" ∧
      r ∉ uniqBy l (fun p : RingCard => p.id) := by
  have hkeep : ∀ x ∈ uniqBy l (fun p : RingCard => p.id), x.id ≠ "" :=
    fun x hx => ((mem_uniqBy _ l x).1 hx).1
  have hno : nameOf (Json.obj fs) = some (Json.str s) := by
    rw [nameOf, hname, jsOr, if_pos (by simp [jsTruthyOpt, truthy, hs])]
  have hcard : toRingCard (Json.obj fs) = MapResult.ok (mkCard (Json.obj fs) (slugify s)) := by
    rw [toRingCard]
    rw [if_pos (by rw [hno]; simp [jsTruthyOpt, truthy, hs])]
    have h1 : skuIdOf (Json.obj fs) = none := by simp [skuIdOf, hsku]
    have h2 : urlIdOf (Json.obj fs) = none := by simp [urlIdOf, hurl]
    rw [h1, h2, hno]
    rfl
  refine ⟨hkeep, ?_, ?_⟩
  · intro ps hps x hx
    rw [ringsOf, if_neg hps] at hx
    exact ((mem_uniqBy _ ps x).1 hx).1
  · refine ⟨mkCard (Json.obj fs) (slugify s), hcard, ?_, ?_⟩
    · show slugify s = ""
      exact slugify_empty s hslug
    · intro hmem
      exact hkeep _ hmem (slugify_empty s hslug)

/-- Witness for C10: the Product named "!!!" maps to a record with empty
id that the deduplication then drops. -/
theorem claim10_witness :
    (jsGet (Json.obj (jfields [("name", Json.str "!!!")])) "name" = some (Json.str "!!!") ∧
     "!!!" ≠ "" ∧
     jsGet (Json.obj (jfields [("name", Json.str "!!!")])) "sku" = none ∧
     jsGet (Json.obj (jfields [("name", Json.str "!!!")])) "url" = none ∧
     ∀ c ∈ "!!!".data.map lowerChar, isSlugChar c = false) ∧
    ((∀ x ∈ uniqBy [cardEmptyId] (fun p : RingCard => p.id), x.id ≠ "") ∧
     (∀ ps : List RingCard, ps ≠ [] → ∀ x ∈ ringsOf ps, x.id ≠ "") ∧
     ∃ r, toRingCard (Json.obj (jfields [("name", Json.str "!!!")])) = MapResult.ok r ∧
       r.id = "" ∧ r ∉ uniqBy [cardEmptyId] (fun p : RingCard => p.id)) :=
  ⟨⟨by decide, by decide, by decide, by decide, by decide⟩,
   claim10_empty_id_dropped [cardEmptyId] (jfields [("name", Json.str "!!!")]) "!!!"
     (by decide) (by decide) (by decide) (by decide) (by decide)⟩
